import Mathlib

/-!
Verification of the request-validation-and-forwarding pipeline of
GitWebhookProxy (`pkg/proxy/proxy.go`), shallowly embedded in Lean.

Go strings are modelled as Lean `String`s; the character-level work is done
on `List Char` via `String.data`.  The external collaborators of the proxy
(the `providers` registry, the `parser` package, and the outbound HTTP
client) are modelled as explicit function parameters, and the outbound
call performed by `httpClient.Do` is instrumented as an explicit list of
issued requests, so that "the upstream was never contacted" is expressible.
-/

namespace GitWebhookProxy

/-- Models Go `unicode.IsSpace`, the predicate `strings.TrimSpace` trims by:
the Latin-1 white space (horizontal tab, line feed, vertical tab, form feed,
carriage return, space, next line, no-break space) together with the
White_Space code points above Latin-1 (ogham space mark U+1680, the en-quad
through hair-space range U+2000-U+200A, line separator U+2028, paragraph
separator U+2029, narrow no-break space U+202F, medium mathematical space
U+205F, and ideographic space U+3000). -/
def goIsSpace (c : Char) : Bool :=
  c == ' ' || c == '\t' || c == '\n' || c.val == 11 || c.val == 12 ||
    c == '\r' || c.val == 133 || c.val == 160 ||
    c.val == 0x1680 || decide (0x2000 ≤ c.toNat ∧ c.toNat ≤ 0x200A) ||
    c.val == 0x2028 || c.val == 0x2029 || c.val == 0x202F ||
    c.val == 0x205F || c.val == 0x3000

/-- Drop leading white space from a character list. -/
def trimLeftL (l : List Char) : List Char := l.dropWhile goIsSpace

/-- Drop trailing white space from a character list. -/
def trimRightL (l : List Char) : List Char := (l.reverse.dropWhile goIsSpace).reverse

/-- Models Go `strings.TrimSpace` at the character-list level. -/
def trimSpaceL (l : List Char) : List Char := trimRightL (trimLeftL l)

/-- Models Go `strings.TrimSpace`. -/
def trimSpace (s : String) : String := String.mk (trimSpaceL s.data)

/-- Models Go `strings.TrimSuffix` at the character-list level: remove one
occurrence of `suffix` from the end of `l` when present. -/
def trimSuffixL (l suffix : List Char) : List Char :=
  if suffix.isSuffixOf l then l.take (l.length - suffix.length) else l

/-- Models Go `strings.TrimSuffix`. -/
def trimSuffix (s suffix : String) : String := String.mk (trimSuffixL s.data suffix.data)

/-- The normalization both sides of the comparison in `isPathAllowed` undergo:
`strings.TrimSuffix(strings.TrimSpace(x), "/")`. -/
def normalizePath (s : String) : String := trimSuffix (trimSpace s) "/"

/-- Models `(p *Proxy) isPathAllowed` from `pkg/proxy/proxy.go` (lines 25-39):
true when the allow-list is empty, otherwise true exactly when some entry
equals the path after both are trimmed of white space and one trailing `/`.
The receiver's `allowedPaths` field is passed explicitly. -/
def isPathAllowed (allowedPaths : List String) (path : String) : Bool :=
  if allowedPaths.length == 0 then
    true
  else
    allowedPaths.any fun p => normalizePath p == normalizePath path

/-- Modelled from the spec: `providers.Hook` (package `pkg/providers` is not
under `src/`).  Spec section 3: `requestMethod` is the HTTP method to use when
replaying upstream, `headers` maps header names to values, `payload` is the
raw byte sequence of the inbound body.  The header map is modelled as an
association list with one entry per Go map key. -/
structure Hook where
  requestMethod : String
  headers : List (String × String)
  payload : List Nat
deriving DecidableEq

/-- Modelled from the spec: `providers.ContentTypeHeader` (package
`pkg/providers` is not under `src/`), the name of the content-type header the
spec says must be propagated. -/
def ContentTypeHeader : String := "Content-Type"

/-- Go map lookup `hook.Headers[key]`, on the association-list model. -/
def lookupHeader (headers : List (String × String)) (key : String) : Option String :=
  (headers.find? fun kv => kv.fst == key).map Prod.snd

/-- Modelled from the spec: the part of a `providers.Provider` value that
`proxyRequest` uses after construction, its `Validate(hook) -> bool`
capability (spec section 4.1).  Construction (`providers.NewProvider`) is
abstracted as a function parameter of `proxyRequest`. -/
structure Provider where
  validate : Hook → Bool

/-- Models the `Proxy` struct (proxy.go lines 17-23).  The `httpClient` field
is modelled as an explicit `client` function argument of `redirect` and
`proxyRequest`. -/
structure Proxy where
  provider : String
  upstreamURL : String
  allowedPaths : List String
  secret : String
deriving DecidableEq

/-- Models `NewProxy` (proxy.go lines 143-168).  A Go nil `allowedPaths`
slice is `none`; an explicitly empty slice is `some []`. -/
def NewProxy (upstreamURL : String) (allowedPaths : Option (List String))
    (provider : String) (secret : String) : Except String Proxy :=
  if (trimSpace secret).length == 0 then
    .error "Cannot create Proxy with empty secret"
  else if (trimSpace upstreamURL).length == 0 then
    .error "Cannot create Proxy with empty upstreamURL"
  else if (trimSpace provider).length == 0 then
    .error "Cannot create Proxy with empty provider"
  else
    match allowedPaths with
    | none => .error "Cannot create Proxy with nil allowedPaths"
    | some paths =>
      .ok { provider := provider, upstreamURL := upstreamURL,
            allowedPaths := paths, secret := secret }

/-- Scheme characters after the first: letters per Go `getscheme`. -/
def isSchemeAlpha (c : Char) : Bool :=
  decide (97 ≤ c.toNat ∧ c.toNat ≤ 122) || decide (65 ≤ c.toNat ∧ c.toNat ≤ 90)

/-- Digits and `+ - .`, allowed inside (not at the start of) a scheme. -/
def isSchemeDigitExtra (c : Char) : Bool :=
  decide (48 ≤ c.toNat ∧ c.toNat ≤ 57) || c == '+' || c == '-' || c == '.'

/-- An ASCII control byte in the sense of `net/url` (below space, or DEL). -/
def isCTLByte (c : Char) : Bool := decide (c.toNat < 32) || c.toNat == 127

/-- ASCII lower-casing of one character, as `strings.ToLower` acts on the
letters `getscheme` admits into a scheme. -/
def toLowerChar (c : Char) : Char :=
  if 65 ≤ c.toNat ∧ c.toNat ≤ 90 then Char.ofNat (c.toNat + 32) else c

/-- ASCII lower-casing of a character list. -/
def toLowerL (l : List Char) : List Char := l.map toLowerChar

/-- The scanning loop of `net/url`'s `getscheme`: `raw` is the whole input,
`seen` the characters consumed so far, and the third argument the rest. -/
def getschemeAux (raw : List Char) (seen : List Char) :
    List Char → Except String (List Char × List Char)
  | [] => .ok ([], raw)
  | c :: rest =>
    if isSchemeAlpha c then
      getschemeAux raw (seen ++ [c]) rest
    else if isSchemeDigitExtra c then
      if seen.isEmpty then .ok ([], raw) else getschemeAux raw (seen ++ [c]) rest
    else if c == ':' then
      if seen.isEmpty then .error "missing protocol scheme" else .ok (seen, rest)
    else
      .ok ([], raw)

/-- Models `net/url`'s `getscheme`: split a leading `scheme:` off the raw URL,
returning the empty scheme and the whole input when there is none. -/
def getscheme (raw : List Char) : Except String (List Char × List Char) :=
  getschemeAux raw [] raw

/-- Hex digit per `net/url`'s `ishex`. -/
def ishex (c : Char) : Bool :=
  decide (48 ≤ c.toNat ∧ c.toNat ≤ 57) || decide (97 ≤ c.toNat ∧ c.toNat ≤ 102) ||
    decide (65 ≤ c.toNat ∧ c.toNat ≤ 70)

/-- Go `shouldEscape(c, encodeHost)`: true for the bytes a host must not
contain unescaped (everything except alphanumerics, the unreserved marks,
the sub-delims, and the extra host characters Go admits). -/
def shouldEscapeHost (c : Char) : Bool :=
  !(decide (97 ≤ c.toNat ∧ c.toNat ≤ 122) || decide (65 ≤ c.toNat ∧ c.toNat ≤ 90) ||
    decide (48 ≤ c.toNat ∧ c.toNat ≤ 57) ||
    c == '!' || c == '$' || c == '&' || c.toNat == 39 || c == '(' || c == ')' ||
    c == '*' || c == '+' || c == ',' || c == ';' || c == '=' ||
    c == ':' || c == '[' || c == ']' || c == '<' || c == '>' || c.toNat == 34 ||
    c == '-' || c == '.' || c == '_' || c.toNat == 126)

/-- The escape-validity scan of `net/url`'s `unescape` (path, fragment and
userinfo modes): every `%` must be followed by two hex digits. -/
def escapesOk : List Char → Bool
  | [] => true
  | c :: rest =>
    if c == '%' then
      match rest with
      | a :: b :: rest2 => ishex a && ishex b && escapesOk rest2
      | _ => false
    else escapesOk rest

/-- The host-mode scan of `net/url`'s `unescape`: escapes must be well
formed, an escape of an ASCII byte (first hex digit below 8) is only allowed
as `%25`, and a plain ASCII byte that `shouldEscape` in host mode is
rejected. -/
def hostUnescapeOk : List Char → Bool
  | [] => true
  | c :: rest =>
    if c == '%' then
      match rest with
      | a :: b :: rest2 =>
        ishex a && ishex b &&
          (!decide (48 ≤ a.toNat ∧ a.toNat ≤ 55) || (a == '2' && b == '5')) &&
          hostUnescapeOk rest2
      | _ => false
    else if shouldEscapeHost c && decide (c.toNat < 128) then
      false
    else hostUnescapeOk rest

/-- Go `validOptionalPort`: empty, or a colon followed by decimal digits. -/
def validOptionalPort : List Char → Bool
  | [] => true
  | c :: rest =>
    c == ':' && rest.all fun d => decide (48 ≤ d.toNat ∧ d.toNat ≤ 57)

/-- The characters Go `validUserinfo` admits in the userinfo part. -/
def validUserinfoChar (c : Char) : Bool :=
  decide (65 ≤ c.toNat ∧ c.toNat ≤ 90) || decide (97 ≤ c.toNat ∧ c.toNat ≤ 122) ||
    decide (48 ≤ c.toNat ∧ c.toNat ≤ 57) ||
    c == '-' || c == '.' || c == '_' || c.toNat == 126 || c == ':' ||
    c == '!' || c == '$' || c == '&' || c.toNat == 39 || c == '(' || c == ')' ||
    c == '*' || c == '+' || c == ',' || c == ';' || c == '=' || c == '%' || c == '@'

/-- Split at the first occurrence of `sep` (Go `strings.Cut`): the parts
before and after it, or `none` when absent. -/
def splitFirst (sep : Char) : List Char → Option (List Char × List Char)
  | [] => none
  | c :: rest =>
    if c == sep then some ([], rest)
    else
      match splitFirst sep rest with
      | none => none
      | some (a, b) => some (c :: a, b)

/-- Split at the last occurrence of `sep` (Go `strings.LastIndex`): the parts
before and after it, or `none` when absent. -/
def splitLast (sep : Char) (l : List Char) : Option (List Char × List Char) :=
  if l.contains sep then
    let r := l.reverse
    let afterRev := r.takeWhile fun c => !(c == sep)
    some ((r.drop (afterRev.length + 1)).reverse, afterRev.reverse)
  else none

/-- Models `net/url`'s `parseHost`: a bracketed host needs its closing
bracket and a valid optional port, a plain host may carry a valid optional
port after the last colon, and the host bytes must pass the host-mode
unescape checks (the zone of a bracketed address is checked in host mode as
well). -/
def parseHost (host : List Char) : Except String Unit :=
  match host with
  | '[' :: _ =>
    match splitLast ']' host with
    | none => .error "missing \x27]\x27 in host"
    | some (_, colonPort) =>
      if validOptionalPort colonPort then
        if hostUnescapeOk host then .ok () else .error "invalid host"
      else .error "invalid port after host"
  | _ =>
    match splitLast ':' host with
    | none => if hostUnescapeOk host then .ok () else .error "invalid host"
    | some (_, port) =>
      if validOptionalPort (':' :: port) then
        if hostUnescapeOk host then .ok () else .error "invalid host"
      else .error "invalid port after host"

/-- Models `net/url`'s `parseAuthority`: the host after the last `@` is
parsed with `parseHost`; a userinfo part must consist of the admissible
userinfo characters and carry well-formed escapes. -/
def parseAuthority (authority : List Char) : Except String Unit :=
  match splitLast '@' authority with
  | none => parseHost authority
  | some (userinfo, host) =>
    match parseHost host with
    | .error e => .error e
    | .ok _ =>
      if userinfo.all validUserinfoChar then
        if escapesOk userinfo then .ok () else .error "invalid URL escape"
      else .error "net/url: invalid userinfo"

/-- Whether the list starts with two slashes (`strings.HasPrefix(rest, "//")`). -/
def startsSlashSlash : List Char → Bool
  | '/' :: '/' :: _ => true
  | _ => false

/-- Whether the list starts with three slashes (`strings.HasPrefix(rest, "///")`). -/
def startsTripleSlash : List Char → Bool
  | '/' :: '/' :: '/' :: _ => true
  | _ => false

/-- The `URL` surface this code consults: the scheme, and the remainder kept
opaque (the host/path/query structure is validated during parsing but never
inspected by `redirect`). -/
structure URL where
  scheme : String
  rest : String
deriving DecidableEq

/-- Models `net/url`'s `parse(rawURL, viaRequest=false)` on the pre-fragment
part: reject control bytes, admit `*`, split off the scheme with `getscheme`
(lower-casing it), cut the query at the first `?` (stored raw, unchecked),
treat a rootless remainder under a scheme as opaque (unchecked), reject a
colon in the first segment of a scheme-less relative path, parse the
authority (userinfo, host, port) when the remainder starts with `//`, and
check the path's percent-escapes as `setPath` does. -/
def parseURLBody (u : List Char) : Except String URL :=
  if u.any isCTLByte then
    .error "net/url: invalid control character in URL"
  else if u == ['*'] then
    .ok { scheme := "", rest := String.mk u }
  else
    match getscheme u with
    | .error e => .error e
    | .ok (schemeRaw, afterScheme) =>
      let scheme := toLowerL schemeRaw
      let rest :=
        match splitFirst '?' afterScheme with
        | none => afterScheme
        | some (before, _) => before
      if rest.head? == some '/' then
        if startsSlashSlash rest && (!scheme.isEmpty || !startsTripleSlash rest) then
          let afterSlashes := rest.drop 2
          let (authority, pathRest) :=
            match splitFirst '/' afterSlashes with
            | none => (afterSlashes, ([] : List Char))
            | some (a, b) => (a, '/' :: b)
          match parseAuthority authority with
          | .error e => .error e
          | .ok _ =>
            if escapesOk pathRest then
              .ok { scheme := String.mk scheme, rest := String.mk afterScheme }
            else .error "invalid URL escape"
        else
          if escapesOk rest then
            .ok { scheme := String.mk scheme, rest := String.mk afterScheme }
          else .error "invalid URL escape"
      else
        if !scheme.isEmpty then
          .ok { scheme := String.mk scheme, rest := String.mk afterScheme }
        else
          let seg :=
            match splitFirst '/' rest with
            | none => rest
            | some (a, _) => a
          if seg.contains ':' then
            .error "first path segment in URL cannot contain colon"
          else if escapesOk rest then
            .ok { scheme := "", rest := String.mk afterScheme }
          else .error "invalid URL escape"

/-- Models `net/url.Parse`: cut the fragment at the first `#`, parse the rest
with `parseURLBody`, and check the fragment's percent-escapes as
`setFragment` does.  Error strings are abbreviated forms of Go's (the
program never surfaces them to the caller). -/
def urlParse (raw : String) : Except String URL :=
  match splitFirst '#' raw.data with
  | none => parseURLBody raw.data
  | some (u, frag) =>
    match parseURLBody u with
    | .error e => .error e
    | .ok url => if escapesOk frag then .ok url else .error "invalid URL escape"

/-- Decidable equality for `Except` results, so that concrete runs of the
model can be checked by evaluation. -/
instance exceptDecEq {α β : Type} [DecidableEq α] [DecidableEq β] :
    DecidableEq (Except α β)
  | .error x, .error y =>
    if h : x = y then .isTrue (by rw [h]) else .isFalse fun he => h (by injection he)
  | .error _, .ok _ => .isFalse fun he => Except.noConfusion he
  | .ok _, .error _ => .isFalse fun he => Except.noConfusion he
  | .ok x, .ok y =>
    if h : x = y then .isTrue (by rw [h]) else .isFalse fun he => h (by injection he)

/-- The upstream HTTP response surface `proxyRequest` inspects: `StatusCode`
and the `Status` line. -/
structure HttpResponse where
  statusCode : Nat
  status : String
deriving DecidableEq

/-- The outbound `http.Request` surface `redirect` constructs: method, URL,
body, and the added headers in addition order (`Header.Add` appends, so the
header collection is a multimap). -/
structure OutboundRequest where
  method : String
  url : URL
  body : List Nat
  headers : List (String × String)
deriving DecidableEq

/-- An HTTP token character per `httpguts.IsTokenRune`: the characters an
HTTP method may consist of. -/
def isTokenChar (c : Char) : Bool :=
  decide (48 ≤ c.toNat ∧ c.toNat ≤ 57) || decide (65 ≤ c.toNat ∧ c.toNat ≤ 90) ||
    decide (97 ≤ c.toNat ∧ c.toNat ≤ 122) ||
    c == '!' || c.toNat == 35 || c == '$' || c == '%' || c == '&' ||
    c.toNat == 39 || c == '*' || c == '+' || c == '-' || c == '.' ||
    c.toNat == 94 || c == '_' || c.toNat == 96 || c == '|' || c.toNat == 126

/-- Go `net/http`'s `validMethod`: non-empty and made of token characters. -/
def validMethod (m : String) : Bool := !m.data.isEmpty && m.data.all isTokenChar

/-- The outbound target of `redirect` (proxy.go line 47): plain string
concatenation of the upstream URL and the inbound path. -/
def redirectTarget (p : Proxy) (path : String) : String := p.upstreamURL ++ path

/-- Models lines 46-72 of `redirect`: parse `upstreamURL + path`, default an
empty scheme to `http`, build the outbound request with `http.NewRequest`
(which substitutes GET for an empty method and rejects a method with
non-token characters), then add the content-type header first when present,
followed by every hook header. -/
def buildRedirectRequest (p : Proxy) (hook : Hook) (path : String) :
    Except String OutboundRequest :=
  match urlParse (redirectTarget p path) with
  | .error e => .error e
  | .ok u =>
    let u := if u.scheme == "" then { u with scheme := "http" } else u
    let method := if hook.requestMethod == "" then "GET" else hook.requestMethod
    if validMethod method then
      let req : OutboundRequest :=
        { method := method, url := u, body := hook.payload, headers := [] }
      let req :=
        match lookupHeader hook.headers ContentTypeHeader with
        | some v => { req with headers := req.headers ++ [(ContentTypeHeader, v)] }
        | none => req
      let req := { req with headers := req.headers ++ hook.headers }
      .ok req
    else
      .error ("net/http: invalid method \x22" ++ method ++ "\x22")

/-- Models `(p *Proxy) redirect` (proxy.go lines 41-76), instrumented: the
first component lists the outbound requests handed to `httpClient.Do` (the
`client` argument), so an empty list means the upstream was never contacted. -/
def redirect (client : OutboundRequest → Except String HttpResponse)
    (p : Proxy) (hook : Option Hook) (path : String) :
    List OutboundRequest × Except String (OutboundRequest × HttpResponse) :=
  match hook with
  | none => ([], .error "Cannot redirect with nil Hook")
  | some h =>
    match buildRedirectRequest p h path with
    | .error e => ([], .error e)
    | .ok req =>
      match client req with
      | .error e => ([req], .error e)
      | .ok resp => ([req], .ok (req, resp))

/-- Models `http.Error`: the body it writes is the message plus a newline. -/
def httpError (msg : String) : String := msg ++ "\n"

/-- The inbound request surface `proxyRequest` reads: `r.URL.Path`, and the
rendering `r.URL.String()` interpolated into error bodies. -/
structure InboundRequest where
  urlPath : String
  urlString : String
deriving DecidableEq

/-- The observable outcome of `proxyRequest`: the HTTP status and body
written to the original caller, and the instrumented list of outbound
requests handed to the HTTP client. -/
structure ProxyResult where
  status : Nat
  body : String
  sent : List OutboundRequest
deriving DecidableEq

/-- Models `(p *Proxy) proxyRequest` (proxy.go lines 78-122).  `newProvider`
models `providers.NewProvider` and `parse` models `parser.Parse` already
applied to the inbound request (both packages are external collaborators);
`client` models the outbound HTTP client.  Returning without writing
produces Go's default 200 response with an empty body. -/
def proxyRequest (newProvider : String → String → Except String Provider)
    (parse : Provider → Except String Hook)
    (client : OutboundRequest → Except String HttpResponse)
    (p : Proxy) (r : InboundRequest) : ProxyResult :=
  if !(isPathAllowed p.allowedPaths r.urlPath) then
    { status := 403,
      body := httpError ("Not allowed to proxy path: \x27" ++ r.urlPath ++ "\x27"),
      sent := [] }
  else
    match newProvider p.provider p.secret with
    | .error _ =>
      { status := 500, body := httpError "Error creating Provider", sent := [] }
    | .ok provider =>
      match parse provider with
      | .error e =>
        { status := 400, body := httpError ("Error parsing Hook: " ++ e), sent := [] }
      | .ok hook =>
        if !(provider.validate hook) then
          { status := 400, body := httpError "Error validating Hook", sent := [] }
        else
          match redirect client p (some hook) r.urlPath with
          | (calls, .error _) =>
            { status := 500,
              body := httpError ("Error Redirecting \x27" ++ r.urlString ++
                "\x27 to upstream \x27" ++ p.upstreamURL ++ r.urlPath ++ "\x27"),
              sent := calls }
          | (calls, .ok (_, resp)) =>
            if resp.statusCode ≥ 400 then
              { status := resp.statusCode,
                body := httpError ("Error Redirecting \x27" ++ r.urlString ++
                  "\x27 to upstream \x27" ++ p.upstreamURL ++ r.urlPath ++
                  "\x27 Upstream Redirect Status:" ++ resp.status),
                sent := calls }
            else
              { status := 200, body := "", sent := calls }

/-- Number of header entries carrying the given name, used to state the
duplicate-addition behaviour of `redirect`. -/
def countKey (headers : List (String × String)) (key : String) : Nat :=
  (headers.filter fun kv => kv.fst == key).length

/-- Whether every character of the string is white space (the empty string
included). -/
def wsOnly (s : String) : Bool := s.data.all goIsSpace

/-! ### Helper lemmas about the string model -/

lemma mk_eq_mk_iff (a b : List Char) : String.mk a = String.mk b ↔ a = b :=
  ⟨fun h => by injection h, fun h => by rw [h]⟩

lemma string_eq_empty_iff (s : String) : s = "" ↔ s.data = [] := by
  constructor
  · intro h; rw [h]
  · intro h
    cases s with
    | mk d => cases h; rfl

lemma string_length_eq_zero_iff (s : String) : (s.length == 0) = true ↔ s.data = [] := by
  rw [beq_iff_eq]
  show s.data.length = 0 ↔ s.data = []
  exact List.length_eq_zero

lemma trimSpace_eq_empty_iff (s : String) :
    trimSpace s = "" ↔ trimSpaceL s.data = [] := by
  simpa [trimSpace] using string_eq_empty_iff (String.mk (trimSpaceL s.data))

lemma normalizePath_eq (s : String) :
    normalizePath s = String.mk (trimSuffixL (trimSpaceL s.data) ['/']) := rfl

lemma dropWhile_append_of_all (p : Char → Bool) (w l : List Char)
    (h : ∀ c ∈ w, p c = true) :
    (w ++ l).dropWhile p = l.dropWhile p := by
  induction w with
  | nil => rfl
  | cons a w ih =>
    simp only [List.cons_append, List.dropWhile_cons, h a (by simp)]
    exact ih fun c hc => h c (by simp [hc])

lemma trimLeftL_cons_space (c : Char) (l : List Char) (h : goIsSpace c = true) :
    trimLeftL (c :: l) = trimLeftL l := by
  simp [trimLeftL, List.dropWhile_cons, h]

lemma trimLeftL_append_of_ne_nil (l m : List Char) (h : trimLeftL l ≠ []) :
    trimLeftL (l ++ m) = trimLeftL l ++ m := by
  induction l with
  | nil => exact absurd rfl h
  | cons a l ih =>
    by_cases ha : goIsSpace a = true
    · rw [List.cons_append, trimLeftL_cons_space a (l ++ m) ha,
        trimLeftL_cons_space a l ha]
      exact ih (by rwa [trimLeftL_cons_space a l ha] at h)
    · simp [trimLeftL, List.dropWhile_cons, ha]

lemma mem_of_getLast?_eq_some (l : List Char) (c : Char)
    (h : l.getLast? = some c) : c ∈ l := by
  have hne : l ≠ [] := by rintro rfl; simp at h
  have he := List.getLast?_eq_getLast l hne
  rw [he] at h
  injection h with h
  rw [← h]
  exact List.getLast_mem hne

lemma trimLeftL_ne_nil_of_getLast (l : List Char) (c : Char)
    (hl : l.getLast? = some c) (hc : goIsSpace c = false) : trimLeftL l ≠ [] := by
  intro he
  have hall : ∀ x ∈ l, goIsSpace x = true := List.dropWhile_eq_nil_iff.mp he
  have := hall c (mem_of_getLast?_eq_some l c hl)
  simp [this] at hc

lemma getLast?_of_suffix (l₁ l₂ : List Char) (h : l₁ <:+ l₂) (hne : l₁ ≠ []) :
    l₁.getLast? = l₂.getLast? := by
  obtain ⟨t, rfl⟩ := h
  exact (List.getLast?_append_of_ne_nil _ hne).symm

lemma trimLeftL_getLast (l : List Char) (c : Char)
    (hl : l.getLast? = some c) (hc : goIsSpace c = false) :
    (trimLeftL l).getLast? = some c := by
  rw [getLast?_of_suffix (trimLeftL l) l (List.dropWhile_suffix goIsSpace)
    (trimLeftL_ne_nil_of_getLast l c hl hc)]
  exact hl

lemma trimRightL_of_getLast_not_space (l : List Char)
    (h : ∀ c, l.getLast? = some c → goIsSpace c = false) : trimRightL l = l := by
  unfold trimRightL
  cases hr : l.reverse with
  | nil =>
    have : l = [] := by simpa using congrArg List.reverse hr
    simp [this]
  | cons c t =>
    have hc : l.getLast? = some c := by
      rw [← List.head?_reverse, hr]; rfl
    rw [List.dropWhile_cons, h c hc]
    simp only [Bool.false_eq_true, if_false]
    rw [← hr, List.reverse_reverse]

lemma trimRightL_append_slash (x : List Char) : trimRightL (x ++ ['/']) = x ++ ['/'] := by
  apply trimRightL_of_getLast_not_space
  intro c hc
  rw [List.getLast?_append_of_ne_nil _ (by simp)] at hc
  simp only [List.getLast?_singleton, Option.some.injEq] at hc
  rw [← hc]
  rfl

lemma trimSuffixL_append_slash (x : List Char) : trimSuffixL (x ++ ['/']) ['/'] = x := by
  unfold trimSuffixL
  have hsuf : ['/'].isSuffixOf (x ++ ['/']) = true := by
    rw [List.isSuffixOf_iff_suffix]
    exact ⟨x, rfl⟩
  rw [hsuf]
  simp only [if_true, List.length_append, List.length_singleton, Nat.add_sub_cancel]
  exact List.take_left x ['/']

lemma trimSuffixL_of_getLast_ne_slash (l : List Char)
    (h : l.getLast? ≠ some '/') : trimSuffixL l ['/'] = l := by
  unfold trimSuffixL
  have hsuf : ['/'].isSuffixOf l = false := by
    rw [Bool.eq_false_iff]
    intro hs
    rw [List.isSuffixOf_iff_suffix] at hs
    obtain ⟨t, rfl⟩ := hs
    exact h (List.getLast?_append_of_ne_nil _ (by simp))
  rw [hsuf]
  simp

lemma trimSpaceL_cons_space (c : Char) (l : List Char) (h : goIsSpace c = true) :
    trimSpaceL (c :: l) = trimSpaceL l := by
  unfold trimSpaceL
  rw [trimLeftL_cons_space c l h]

lemma normalize_space_cons (p : String) :
    normalizePath (" " ++ p) = normalizePath p := by
  rw [normalizePath_eq, normalizePath_eq]
  have hd : (" " ++ p).data = ' ' :: p.data := by
    rw [String.data_append]; rfl
  rw [hd, trimSpaceL_cons_space ' ' p.data (by decide)]

lemma normalize_append_slash (p : String)
    (h : ∀ c, p.data.getLast? = some c → goIsSpace c = false ∧ c ≠ '/') :
    normalizePath (p ++ "/") = normalizePath p := by
  rw [normalizePath_eq, normalizePath_eq, String.data_append]
  have hsd : ("/" : String).data = ['/'] := rfl
  rw [hsd]
  cases hl : p.data.getLast? with
  | none =>
    have hnil : p.data = [] := List.getLast?_eq_none_iff.mp hl
    rw [hnil]
    decide
  | some c =>
    obtain ⟨hcs, hcne⟩ := h c hl
    have h1 : trimLeftL (p.data ++ ['/']) = trimLeftL p.data ++ ['/'] :=
      trimLeftL_append_of_ne_nil _ _ (trimLeftL_ne_nil_of_getLast _ c hl hcs)
    have h2 : trimSpaceL (p.data ++ ['/']) = trimLeftL p.data ++ ['/'] := by
      unfold trimSpaceL
      rw [h1]
      exact trimRightL_append_slash _
    rw [h2, trimSuffixL_append_slash]
    have h3 : (trimLeftL p.data).getLast? = some c := trimLeftL_getLast _ c hl hcs
    have h4 : trimSpaceL p.data = trimLeftL p.data := by
      unfold trimSpaceL
      apply trimRightL_of_getLast_not_space
      intro c' hc'
      rw [h3] at hc'
      injection hc' with e
      rw [← e]
      exact hcs
    rw [h4, trimSuffixL_of_getLast_ne_slash _ (by
      rw [h3]
      intro hx
      injection hx with e
      exact hcne e)]

lemma trimSpaceL_of_all_space (l : List Char) (h : ∀ c ∈ l, goIsSpace c = true) :
    trimSpaceL l = [] := by
  unfold trimSpaceL
  rw [show trimLeftL l = [] from List.dropWhile_eq_nil_iff.mpr h]
  rfl

lemma normalize_of_wsOnly (s : String) (h : wsOnly s = true) :
    normalizePath s = "" := by
  rw [normalizePath_eq,
    trimSpaceL_of_all_space _ (by simpa [wsOnly, List.all_eq_true] using h)]
  rfl

lemma normalize_wsOnly_slash (s : String) (h : wsOnly s = true) :
    normalizePath (s ++ "/") = "" := by
  rw [normalizePath_eq, String.data_append]
  have hsd : ("/" : String).data = ['/'] := rfl
  rw [hsd]
  have h1 : trimLeftL (s.data ++ ['/']) = ['/'] := by
    unfold trimLeftL
    rw [dropWhile_append_of_all goIsSpace _ _
      (by simpa [wsOnly, List.all_eq_true] using h)]
    decide
  unfold trimSpaceL
  rw [h1]
  decide

lemma normalize_slash : normalizePath "/" = "" := by decide

lemma isPathAllowed_iff_mem (l : List String) (path : String) (h : l ≠ []) :
    isPathAllowed l path = true ↔ ∃ q ∈ l, normalizePath q = normalizePath path := by
  unfold isPathAllowed
  have hlen : ¬((l.length == 0) = true) := by
    simp [List.length_eq_zero, h]
  rw [if_neg hlen]
  simp [List.any_eq_true]

lemma trimSpace_blank_iff (s : String) :
    ((trimSpace s).length == 0) = true ↔ trimSpace s = "" := by
  rw [string_length_eq_zero_iff, ← string_eq_empty_iff]

lemma NewProxy_ok (upstreamURL : String) (paths : List String)
    (provider secret : String) (hs : trimSpace secret ≠ "")
    (hu : trimSpace upstreamURL ≠ "") (hp : trimSpace provider ≠ "") :
    NewProxy upstreamURL (some paths) provider secret =
      .ok { provider := provider, upstreamURL := upstreamURL,
            allowedPaths := paths, secret := secret } := by
  unfold NewProxy
  rw [if_neg fun h => hs ((trimSpace_blank_iff secret).mp h),
    if_neg fun h => hu ((trimSpace_blank_iff upstreamURL).mp h),
    if_neg fun h => hp ((trimSpace_blank_iff provider).mp h)]

lemma NewProxy_error_iff (upstreamURL : String) (allowedPaths : Option (List String))
    (provider secret : String) :
    (∃ e, NewProxy upstreamURL allowedPaths provider secret = .error e) ↔
      (trimSpace secret = "" ∨ trimSpace upstreamURL = "" ∨
       trimSpace provider = "" ∨ allowedPaths = none) := by
  unfold NewProxy
  by_cases hs : trimSpace secret = ""
  · rw [if_pos ((trimSpace_blank_iff secret).mpr hs)]
    exact ⟨fun _ => Or.inl hs, fun _ => ⟨_, rfl⟩⟩
  · rw [if_neg fun h => hs ((trimSpace_blank_iff secret).mp h)]
    by_cases hu : trimSpace upstreamURL = ""
    · rw [if_pos ((trimSpace_blank_iff upstreamURL).mpr hu)]
      exact ⟨fun _ => Or.inr (Or.inl hu), fun _ => ⟨_, rfl⟩⟩
    · rw [if_neg fun h => hu ((trimSpace_blank_iff upstreamURL).mp h)]
      by_cases hp : trimSpace provider = ""
      · rw [if_pos ((trimSpace_blank_iff provider).mpr hp)]
        exact ⟨fun _ => Or.inr (Or.inr (Or.inl hp)), fun _ => ⟨_, rfl⟩⟩
      · rw [if_neg fun h => hp ((trimSpace_blank_iff provider).mp h)]
        cases allowedPaths with
        | none =>
          exact ⟨fun _ => Or.inr (Or.inr (Or.inr rfl)), fun _ => ⟨_, rfl⟩⟩
        | some paths =>
          constructor
          · rintro ⟨e, he⟩
            exact Except.noConfusion he
          · rintro (h | h | h | h)
            · exact absurd h hs
            · exact absurd h hu
            · exact absurd h hp
            · exact Option.noConfusion h

lemma buildRedirectRequest_error (p : Proxy) (h : Hook) (path : String) (e : String)
    (he : urlParse (redirectTarget p path) = .error e) :
    buildRedirectRequest p h path = .error e := by
  unfold buildRedirectRequest
  rw [he]

lemma buildRedirectRequest_ok (p : Proxy) (h : Hook) (path : String)
    (u : URL) (hu : urlParse (redirectTarget p path) = .ok u)
    (hm : validMethod (if h.requestMethod = "" then "GET" else h.requestMethod) = true) :
    buildRedirectRequest p h path = .ok
      { method := if h.requestMethod = "" then "GET" else h.requestMethod,
        url := if u.scheme == "" then { u with scheme := "http" } else u,
        body := h.payload,
        headers := (match lookupHeader h.headers ContentTypeHeader with
                    | some v => [(ContentTypeHeader, v)]
                    | none => []) ++ h.headers } := by
  unfold buildRedirectRequest
  rw [hu]
  cases hl : lookupHeader h.headers ContentTypeHeader <;> simp [hl, hm]

lemma buildRedirectRequest_invalid_method (p : Proxy) (h : Hook) (path : String)
    (u : URL) (hu : urlParse (redirectTarget p path) = .ok u)
    (hm : validMethod (if h.requestMethod = "" then "GET" else h.requestMethod) = false) :
    buildRedirectRequest p h path =
      .error ("net/http: invalid method \x22" ++
        (if h.requestMethod = "" then "GET" else h.requestMethod) ++ "\x22") := by
  unfold buildRedirectRequest
  rw [hu]
  simp [hm]

lemma redirect_of_build_error (client : OutboundRequest → Except String HttpResponse)
    (p : Proxy) (h : Hook) (path : String) (e : String)
    (hb : buildRedirectRequest p h path = .error e) :
    redirect client p (some h) path = ([], .error e) := by
  show (match buildRedirectRequest p h path with
    | Except.error e => ([], Except.error e)
    | Except.ok req =>
      match client req with
      | Except.error e => ([req], Except.error e)
      | Except.ok resp => ([req], Except.ok (req, resp))) = ([], Except.error e)
  rw [hb]

lemma redirect_of_build_ok (client : OutboundRequest → Except String HttpResponse)
    (p : Proxy) (h : Hook) (path : String) (req : OutboundRequest)
    (hb : buildRedirectRequest p h path = .ok req) :
    (redirect client p (some h) path).fst = [req] := by
  show (match buildRedirectRequest p h path with
    | Except.error e => ([], Except.error e)
    | Except.ok req =>
      match client req with
      | Except.error e => ([req], Except.error e)
      | Except.ok resp => ([req], Except.ok (req, resp))).fst = [req]
  rw [hb]
  show (match client req with
    | Except.error e => ([req], Except.error e)
    | Except.ok resp => ([req], Except.ok (req, resp))).fst = [req]
  cases client req <;> rfl

lemma redirect_sent_inv (client : OutboundRequest → Except String HttpResponse)
    (p : Proxy) (h : Hook) (path : String) (req : OutboundRequest)
    (hs : (redirect client p (some h) path).fst = [req]) :
    buildRedirectRequest p h path = .ok req := by
  cases hb : buildRedirectRequest p h path with
  | error e =>
    rw [redirect_of_build_error client p h path e hb] at hs
    simp at hs
  | ok r =>
    rw [redirect_of_build_ok client p h path r hb] at hs
    simp at hs
    rw [hs]

lemma countKey_cons (a : String × String) (hs : List (String × String)) (k : String) :
    countKey (a :: hs) k = (if a.fst == k then 1 else 0) + countKey hs k := by
  unfold countKey
  rw [List.filter_cons]
  by_cases h : (a.fst == k) = true <;> simp [h, Nat.add_comm]

lemma countKey_of_not_mem (hs : List (String × String)) (k : String)
    (h : k ∉ hs.map Prod.fst) : countKey hs k = 0 := by
  induction hs with
  | nil => rfl
  | cons a t ih =>
    simp only [List.map_cons, List.mem_cons] at h
    push_neg at h
    rw [countKey_cons, if_neg fun hb => h.1 (beq_iff_eq.mp hb).symm, Nat.zero_add]
    exact ih h.2

lemma countKey_eq_one_of_nodup (hs : List (String × String)) (k : String)
    (hnd : (hs.map Prod.fst).Nodup) (hmem : k ∈ hs.map Prod.fst) :
    countKey hs k = 1 := by
  induction hs with
  | nil => simp at hmem
  | cons a t ih =>
    simp only [List.map_cons, List.nodup_cons] at hnd
    simp only [List.map_cons, List.mem_cons] at hmem
    rcases hmem with he | hm
    · rw [countKey_cons, if_pos (beq_iff_eq.mpr he.symm),
        countKey_of_not_mem t k (by rw [he]; exact hnd.1)]
    · have hne : ¬((a.fst == k) = true) := by
        intro hb
        rw [beq_iff_eq.mp hb] at hnd
        exact hnd.1 hm
      rw [countKey_cons, if_neg hne, Nat.zero_add]
      exact ih hnd.2 hm

lemma mem_keys_of_lookup (hs : List (String × String)) (k v : String)
    (h : lookupHeader hs k = some v) : k ∈ hs.map Prod.fst := by
  unfold lookupHeader at h
  cases hf : hs.find? fun kv => kv.fst == k with
  | none =>
    rw [hf] at h
    simp at h
  | some kv =>
    have h1 := List.find?_some hf
    have h2 := List.mem_of_find?_eq_some hf
    simp only [List.mem_map]
    exact ⟨kv, h2, beq_iff_eq.mp h1⟩

/-! ### Claim theorems -/

/-- Claim C3: when `allowedPaths` is the empty collection, `isPathAllowed`
returns true for every path. -/
theorem isPathAllowed_empty_allows_all (p : String) : isPathAllowed [] p = true := rfl

/-- Claim C2 counterexample: the claimed universal clauses fail on concrete
allow-lists.  With allow-list `["a "]` and its entry `p = "a "`,
`isPathAllowed (p ++ "/")` is false (the claim says true); with `["a/"]` and
`p = "a/"`, `isPathAllowed (p ++ "/")` is false as well; and with
`["a", "ax"]` and `p = "a"`, `isPathAllowed (p ++ "x")` is true (the claim
says false). -/
theorem isPathAllowed_claim_counterexample :
    isPathAllowed ["a "] ("a " ++ "/") = false ∧
    isPathAllowed ["a/"] ("a/" ++ "/") = false ∧
    isPathAllowed ["a", "ax"] ("a" ++ "x") = true := by decide

/-- Claim C2 (amended): for every non-empty `allowedPaths` and `p` in it,
`isPathAllowed p` and `isPathAllowed (" " ++ p)` are true;
`isPathAllowed (p ++ "/")` is true provided the last character of `p` is
neither white space nor `/`; `isPathAllowed (p ++ "x")` is false provided no
entry normalizes like `p ++ "x"`; and a path is allowed iff, after trimming
white space and one trailing `/`, it equals some entry under the same
normalization. -/
theorem isPathAllowed_normalized_exact_match (l : List String) (p : String)
    (hne : l ≠ []) (hmem : p ∈ l) :
    isPathAllowed l p = true ∧
    isPathAllowed l (" " ++ p) = true ∧
    ((∀ c, p.data.getLast? = some c → goIsSpace c = false ∧ c ≠ '/') →
      isPathAllowed l (p ++ "/") = true) ∧
    ((∀ q ∈ l, normalizePath q ≠ normalizePath (p ++ "x")) →
      isPathAllowed l (p ++ "x") = false) ∧
    (∀ path, isPathAllowed l path = true ↔
      ∃ q ∈ l, normalizePath q = normalizePath path) := by
  refine ⟨?_, ?_, ?_, ?_, fun path => isPathAllowed_iff_mem l path hne⟩
  · exact (isPathAllowed_iff_mem l p hne).mpr ⟨p, hmem, rfl⟩
  · exact (isPathAllowed_iff_mem l _ hne).mpr ⟨p, hmem, (normalize_space_cons p).symm⟩
  · intro h
    exact (isPathAllowed_iff_mem l _ hne).mpr ⟨p, hmem, (normalize_append_slash p h).symm⟩
  · intro h
    apply Bool.eq_false_iff.mpr
    intro ht
    obtain ⟨q, hq, he⟩ := (isPathAllowed_iff_mem l _ hne).mp ht
    exact h q hq he

/-- Witness for the amended claim C2, at the allow-list `["/foo"]` and its
entry `"/foo"`. -/
theorem isPathAllowed_normalized_exact_match_witness :
    isPathAllowed ["/foo"] "/foo" = true ∧
    isPathAllowed ["/foo"] (" " ++ "/foo") = true ∧
    isPathAllowed ["/foo"] ("/foo" ++ "/") = true ∧
    isPathAllowed ["/foo"] ("/foo" ++ "x") = false ∧
    (isPathAllowed ["/foo"] "/foo/bar" = true ↔
      ∃ q ∈ ["/foo"], normalizePath q = normalizePath "/foo/bar") := by
  have h := isPathAllowed_normalized_exact_match ["/foo"] "/foo" (by decide) (by decide)
  refine ⟨h.1, h.2.1, h.2.2.1 ?_, h.2.2.2.1 (by decide), h.2.2.2.2 "/foo/bar"⟩
  intro c hc
  have ho : ("/foo" : String).data.getLast? = some 'o' := by decide
  rw [ho] at hc
  injection hc with e
  rw [← e]
  exact ⟨by decide, by decide⟩

/-- Claim C10: the normalization in `isPathAllowed` maps `/`, every white
space-only string, and every white space-only string with one trailing `/`
to the empty string, so an allow-list containing `/` or a white space-only
entry allows the empty path, `/`, and every white space-only path; and an
allow-list entry `""` matches the path `/`. -/
theorem blank_normalization_collapse (l : List String) (e : String)
    (hmem : e ∈ l) (he : e = "/" ∨ wsOnly e = true) :
    normalizePath "/" = "" ∧
    (∀ s, wsOnly s = true → normalizePath s = "" ∧ normalizePath (s ++ "/") = "") ∧
    isPathAllowed l "" = true ∧
    isPathAllowed l "/" = true ∧
    (∀ w, wsOnly w = true → isPathAllowed l w = true) ∧
    (∀ l2 : List String, ("" : String) ∈ l2 → isPathAllowed l2 "/" = true) := by
  have hne : l ≠ [] := List.ne_nil_of_mem hmem
  have hee : normalizePath e = "" := by
    rcases he with h | h
    · rw [h]; exact normalize_slash
    · exact normalize_of_wsOnly e h
  have key : ∀ path, normalizePath path = "" → isPathAllowed l path = true := by
    intro path hp
    exact (isPathAllowed_iff_mem l path hne).mpr ⟨e, hmem, by rw [hee, hp]⟩
  refine ⟨normalize_slash,
    fun s hs => ⟨normalize_of_wsOnly s hs, normalize_wsOnly_slash s hs⟩,
    key "" (by decide), key "/" normalize_slash,
    fun w hw => key w (normalize_of_wsOnly w hw), ?_⟩
  intro l2 h2
  exact (isPathAllowed_iff_mem l2 "/" (List.ne_nil_of_mem h2)).mpr
    ⟨"", h2, by rw [normalize_slash]; decide⟩

/-- Witness for claim C10, at the allow-list `["/"]` and entry `"/"` (and the
allow-list `[""]` for the last clause). -/
theorem blank_normalization_collapse_witness :
    isPathAllowed ["/"] "" = true ∧ isPathAllowed ["/"] "/" = true ∧
    isPathAllowed ["/"] " " = true ∧ isPathAllowed [""] "/" = true := by
  have h := blank_normalization_collapse ["/"] "/" (by decide) (Or.inl rfl)
  exact ⟨h.2.2.1, h.2.2.2.1, h.2.2.2.2.1 " " (by decide), h.2.2.2.2.2 [""] (by decide)⟩

/-- Claim C7: for every client, proxy configuration and path, `redirect` with
an absent hook fails with the nil-hook error, and no outbound request is
constructed or handed to the HTTP client (the instrumented call list is
empty). -/
theorem redirect_nil_hook (client : OutboundRequest → Except String HttpResponse)
    (p : Proxy) (path : String) :
    redirect client p none path = ([], .error "Cannot redirect with nil Hook") := rfl

/-- Claim C4: `NewProxy` returns an error (constructing nothing) exactly when
secret, upstreamURL or provider is blank after trimming or `allowedPaths` is
the nil collection; with all four supplied (an explicitly empty non-nil
`allowedPaths` being valid) it returns a `Proxy` and no error. -/
theorem NewProxy_validation (upstreamURL : String) (allowedPaths : Option (List String))
    (provider secret : String) :
    ((∃ e, NewProxy upstreamURL allowedPaths provider secret = .error e) ↔
      (trimSpace secret = "" ∨ trimSpace upstreamURL = "" ∨
       trimSpace provider = "" ∨ allowedPaths = none)) ∧
    (∀ paths, allowedPaths = some paths → trimSpace secret ≠ "" →
      trimSpace upstreamURL ≠ "" → trimSpace provider ≠ "" →
      NewProxy upstreamURL allowedPaths provider secret =
        .ok { provider := provider, upstreamURL := upstreamURL,
              allowedPaths := paths, secret := secret }) := by
  refine ⟨NewProxy_error_iff upstreamURL allowedPaths provider secret, ?_⟩
  rintro paths rfl hs hu hp
  exact NewProxy_ok upstreamURL paths provider secret hs hu hp

/-- Witness for claim C4: a fully supplied configuration (with the explicitly
empty allow-list) constructs a proxy, and a white space-only upstream URL is
rejected. -/
theorem NewProxy_validation_witness :
    NewProxy "http://localhost" (some []) "github" "secret" =
      .ok { provider := "github", upstreamURL := "http://localhost",
            allowedPaths := [], secret := "secret" } ∧
    (∃ e, NewProxy "  " (some []) "github" "secret" = .error e) := by
  constructor
  · exact (NewProxy_validation "http://localhost" (some []) "github" "secret").2 []
      rfl (by decide) (by decide) (by decide)
  · exact (NewProxy_validation "  " (some []) "github" "secret").1.mpr
      (Or.inr (Or.inl (by decide)))

/-- Claim C9: `NewProxy` stores its arguments verbatim — the constructed
proxy's fields equal the arguments exactly as passed, untrimmed — and the
stored upstream URL is concatenated untrimmed into the outbound target used
by `redirect`. -/
theorem NewProxy_stores_verbatim (upstreamURL : String) (paths : List String)
    (provider secret : String)
    (hs : trimSpace secret ≠ "") (hu : trimSpace upstreamURL ≠ "")
    (hp : trimSpace provider ≠ "") :
    NewProxy upstreamURL (some paths) provider secret =
      .ok { provider := provider, upstreamURL := upstreamURL,
            allowedPaths := paths, secret := secret } ∧
    (∀ q path, NewProxy upstreamURL (some paths) provider secret = .ok q →
      redirectTarget q path = upstreamURL ++ path) := by
  have h := NewProxy_ok upstreamURL paths provider secret hs hu hp
  refine ⟨h, ?_⟩
  intro q path hq
  rw [h] at hq
  injection hq with hq2
  rw [← hq2]
  rfl

/-- Witness for claim C9: the white space-padded upstream URL `" http://u"`
is accepted and flows untrimmed into the outbound target. -/
theorem NewProxy_stores_verbatim_witness :
    NewProxy " http://u" (some []) "github" "s" =
      .ok { provider := "github", upstreamURL := " http://u",
            allowedPaths := [], secret := "s" } ∧
    redirectTarget ({ provider := "github", upstreamURL := " http://u",
                      allowedPaths := [], secret := "s" } : Proxy) "/x" =
      " http://u" ++ "/x" := by
  have h := NewProxy_stores_verbatim " http://u" [] "github" "s"
    (by decide) (by decide) (by decide)
  exact ⟨h.1, h.2 _ "/x" h.1⟩

/-- Claim C6: in the outbound request `redirect` constructs, the content-type
header (when present in the hook's headers) is added first and then every
hook header is added, so content-type occurs twice (duplicate addition, not
deduplicated) while every other hook header occurs exactly once. -/
theorem redirect_header_duplication
    (client : OutboundRequest → Except String HttpResponse)
    (p : Proxy) (h : Hook) (path : String) (req : OutboundRequest)
    (hnd : (h.headers.map Prod.fst).Nodup)
    (hreq : (redirect client p (some h) path).fst = [req]) :
    (∀ v, lookupHeader h.headers ContentTypeHeader = some v →
      req.headers = (ContentTypeHeader, v) :: h.headers ∧
      countKey req.headers ContentTypeHeader = 2) ∧
    (lookupHeader h.headers ContentTypeHeader = none →
      req.headers = h.headers) ∧
    (∀ k v, k ≠ ContentTypeHeader → (k, v) ∈ h.headers →
      countKey req.headers k = 1) := by
  have hb := redirect_sent_inv client p h path req hreq
  cases hu : urlParse (redirectTarget p path) with
  | error e =>
    rw [buildRedirectRequest_error p h path e hu] at hb
    exact absurd hb (by simp)
  | ok u =>
    by_cases hm : validMethod (if h.requestMethod = "" then "GET" else h.requestMethod) = true
    case neg =>
      rw [buildRedirectRequest_invalid_method p h path u hu (Bool.eq_false_iff.mpr hm)] at hb
      exact absurd hb (by simp)
    rw [buildRedirectRequest_ok p h path u hu hm] at hb
    injection hb with hb2
    have hh : req.headers = (match lookupHeader h.headers ContentTypeHeader with
        | some v => [(ContentTypeHeader, v)]
        | none => []) ++ h.headers := by
      rw [← hb2]
    refine ⟨?_, ?_, ?_⟩
    · intro v hv
      rw [hh, hv]
      constructor
      · rfl
      · rw [show ((([(ContentTypeHeader, v)] : List (String × String)) ++ h.headers) : List (String × String)) =
          (ContentTypeHeader, v) :: h.headers from rfl, countKey_cons,
          if_pos (beq_iff_eq.mpr rfl),
          countKey_eq_one_of_nodup h.headers ContentTypeHeader hnd
            (mem_keys_of_lookup h.headers ContentTypeHeader v hv)]
    · intro hv
      rw [hh, hv]
      rfl
    · intro k v hk hkv
      have hm : k ∈ h.headers.map Prod.fst :=
        List.mem_map.mpr ⟨(k, v), hkv, rfl⟩
      have h1 : countKey h.headers k = 1 := countKey_eq_one_of_nodup h.headers k hnd hm
      rw [hh]
      cases hl : lookupHeader h.headers ContentTypeHeader with
      | none =>
        rw [List.nil_append]
        exact h1
      | some v0 =>
        rw [show ((([(ContentTypeHeader, v0)] : List (String × String)) ++ h.headers) : List (String × String)) =
          (ContentTypeHeader, v0) :: h.headers from rfl, countKey_cons,
          if_neg fun hbq => hk (beq_iff_eq.mp hbq).symm, Nat.zero_add]
        exact h1

/-- Witness for claim C6 at a hook whose headers are a content-type and one
other header: the constructed request holds content-type twice and the other
header once. -/
theorem redirect_header_duplication_witness :
    countKey [(ContentTypeHeader, "application/json"),
      (ContentTypeHeader, "application/json"), ("X-A", "1")] ContentTypeHeader = 2 ∧
    countKey [(ContentTypeHeader, "application/json"),
      (ContentTypeHeader, "application/json"), ("X-A", "1")] "X-A" = 1 := by
  have h := redirect_header_duplication (fun _ => .ok ⟨200, "200 OK"⟩)
    ({ provider := "github", upstreamURL := "/u",
       allowedPaths := [], secret := "s" } : Proxy)
    { requestMethod := "POST",
      headers := [(ContentTypeHeader, "application/json"), ("X-A", "1")],
      payload := [1, 2] }
    "/x"
    { method := "POST", url := { scheme := "http", rest := "/u/x" }, body := [1, 2],
      headers := [(ContentTypeHeader, "application/json"),
        (ContentTypeHeader, "application/json"), ("X-A", "1")] }
    (by decide) (by decide)
  exact ⟨(h.1 "application/json" (by decide)).2,
    h.2.2 "X-A" "1" (by decide) (by decide)⟩

lemma proxyRequest_not_allowed (np : String → String → Except String Provider)
    (parse : Provider → Except String Hook)
    (client : OutboundRequest → Except String HttpResponse)
    (p : Proxy) (r : InboundRequest)
    (h : isPathAllowed p.allowedPaths r.urlPath = false) :
    proxyRequest np parse client p r =
      { status := 403,
        body := httpError ("Not allowed to proxy path: \x27" ++ r.urlPath ++ "\x27"),
        sent := [] } := by
  unfold proxyRequest
  simp [h]

lemma proxyRequest_provider_error (np : String → String → Except String Provider)
    (parse : Provider → Except String Hook)
    (client : OutboundRequest → Except String HttpResponse)
    (p : Proxy) (r : InboundRequest) (e : String)
    (hp : isPathAllowed p.allowedPaths r.urlPath = true)
    (he : np p.provider p.secret = .error e) :
    proxyRequest np parse client p r =
      { status := 500, body := httpError "Error creating Provider", sent := [] } := by
  unfold proxyRequest
  simp [hp, he]

lemma proxyRequest_parse_error (np : String → String → Except String Provider)
    (parse : Provider → Except String Hook)
    (client : OutboundRequest → Except String HttpResponse)
    (p : Proxy) (r : InboundRequest) (pr : Provider) (e : String)
    (hp : isPathAllowed p.allowedPaths r.urlPath = true)
    (hnp : np p.provider p.secret = .ok pr)
    (hpe : parse pr = .error e) :
    proxyRequest np parse client p r =
      { status := 400, body := httpError ("Error parsing Hook: " ++ e), sent := [] } := by
  unfold proxyRequest
  simp [hp, hnp, hpe]

lemma proxyRequest_validate_false (np : String → String → Except String Provider)
    (parse : Provider → Except String Hook)
    (client : OutboundRequest → Except String HttpResponse)
    (p : Proxy) (r : InboundRequest) (pr : Provider) (hook : Hook)
    (hp : isPathAllowed p.allowedPaths r.urlPath = true)
    (hnp : np p.provider p.secret = .ok pr)
    (hok : parse pr = .ok hook)
    (hv : pr.validate hook = false) :
    proxyRequest np parse client p r =
      { status := 400, body := httpError "Error validating Hook", sent := [] } := by
  unfold proxyRequest
  simp [hp, hnp, hok, hv]

lemma proxyRequest_redirect_error (np : String → String → Except String Provider)
    (parse : Provider → Except String Hook)
    (client : OutboundRequest → Except String HttpResponse)
    (p : Proxy) (r : InboundRequest) (pr : Provider) (hook : Hook)
    (calls : List OutboundRequest) (e : String)
    (hp : isPathAllowed p.allowedPaths r.urlPath = true)
    (hnp : np p.provider p.secret = .ok pr)
    (hok : parse pr = .ok hook)
    (hv : pr.validate hook = true)
    (hr : redirect client p (some hook) r.urlPath = (calls, .error e)) :
    proxyRequest np parse client p r =
      { status := 500,
        body := httpError ("Error Redirecting \x27" ++ r.urlString ++
          "\x27 to upstream \x27" ++ p.upstreamURL ++ r.urlPath ++ "\x27"),
        sent := calls } := by
  unfold proxyRequest
  simp [hp, hnp, hok, hv, hr]

lemma proxyRequest_upstream_status (np : String → String → Except String Provider)
    (parse : Provider → Except String Hook)
    (client : OutboundRequest → Except String HttpResponse)
    (p : Proxy) (r : InboundRequest) (pr : Provider) (hook : Hook)
    (calls : List OutboundRequest) (req : OutboundRequest) (resp : HttpResponse)
    (hp : isPathAllowed p.allowedPaths r.urlPath = true)
    (hnp : np p.provider p.secret = .ok pr)
    (hok : parse pr = .ok hook)
    (hv : pr.validate hook = true)
    (hr : redirect client p (some hook) r.urlPath = (calls, .ok (req, resp)))
    (hge : 400 ≤ resp.statusCode) :
    proxyRequest np parse client p r =
      { status := resp.statusCode,
        body := httpError ("Error Redirecting \x27" ++ r.urlString ++
          "\x27 to upstream \x27" ++ p.upstreamURL ++ r.urlPath ++
          "\x27 Upstream Redirect Status:" ++ resp.status),
        sent := calls } := by
  unfold proxyRequest
  simp [hp, hnp, hok, hv, hr, hge]

lemma proxyRequest_success (np : String → String → Except String Provider)
    (parse : Provider → Except String Hook)
    (client : OutboundRequest → Except String HttpResponse)
    (p : Proxy) (r : InboundRequest) (pr : Provider) (hook : Hook)
    (calls : List OutboundRequest) (req : OutboundRequest) (resp : HttpResponse)
    (hp : isPathAllowed p.allowedPaths r.urlPath = true)
    (hnp : np p.provider p.secret = .ok pr)
    (hok : parse pr = .ok hook)
    (hv : pr.validate hook = true)
    (hr : redirect client p (some hook) r.urlPath = (calls, .ok (req, resp)))
    (hlt : resp.statusCode < 400) :
    proxyRequest np parse client p r =
      { status := 200, body := "", sent := calls } := by
  unfold proxyRequest
  simp [hp, hnp, hok, hv, hr, Nat.not_le.mpr hlt]

/-- Claim C1: `proxyRequest` runs the seven orchestration steps strictly in
order and responds according to the first failing step — 403 when the path is
not allowed; 500 when provider construction fails; 400 with the parser's
error message in the body when parsing fails; 400 when `Validate` returns
false; 500 when the redirect call errors; the upstream's own status code when
the upstream response status is at least 400; otherwise the default 200 with
empty body.  Each failure is terminal: the returned result is fixed at that
step and, for the pre-redirect failures, the instrumented call list is
empty. -/
theorem proxyRequest_orchestration (np : String → String → Except String Provider)
    (parse : Provider → Except String Hook)
    (client : OutboundRequest → Except String HttpResponse)
    (p : Proxy) (r : InboundRequest) :
    (isPathAllowed p.allowedPaths r.urlPath = false →
      proxyRequest np parse client p r =
        { status := 403,
          body := httpError ("Not allowed to proxy path: \x27" ++ r.urlPath ++ "\x27"),
          sent := [] }) ∧
    (∀ e, isPathAllowed p.allowedPaths r.urlPath = true →
      np p.provider p.secret = .error e →
      proxyRequest np parse client p r =
        { status := 500, body := httpError "Error creating Provider", sent := [] }) ∧
    (∀ pr e, isPathAllowed p.allowedPaths r.urlPath = true →
      np p.provider p.secret = .ok pr → parse pr = .error e →
      proxyRequest np parse client p r =
        { status := 400, body := httpError ("Error parsing Hook: " ++ e), sent := [] }) ∧
    (∀ pr hook, isPathAllowed p.allowedPaths r.urlPath = true →
      np p.provider p.secret = .ok pr → parse pr = .ok hook →
      pr.validate hook = false →
      proxyRequest np parse client p r =
        { status := 400, body := httpError "Error validating Hook", sent := [] }) ∧
    (∀ pr hook calls e, isPathAllowed p.allowedPaths r.urlPath = true →
      np p.provider p.secret = .ok pr → parse pr = .ok hook →
      pr.validate hook = true →
      redirect client p (some hook) r.urlPath = (calls, .error e) →
      proxyRequest np parse client p r =
        { status := 500,
          body := httpError ("Error Redirecting \x27" ++ r.urlString ++
            "\x27 to upstream \x27" ++ p.upstreamURL ++ r.urlPath ++ "\x27"),
          sent := calls }) ∧
    (∀ pr hook calls req resp, isPathAllowed p.allowedPaths r.urlPath = true →
      np p.provider p.secret = .ok pr → parse pr = .ok hook →
      pr.validate hook = true →
      redirect client p (some hook) r.urlPath = (calls, .ok (req, resp)) →
      400 ≤ resp.statusCode →
      proxyRequest np parse client p r =
        { status := resp.statusCode,
          body := httpError ("Error Redirecting \x27" ++ r.urlString ++
            "\x27 to upstream \x27" ++ p.upstreamURL ++ r.urlPath ++
            "\x27 Upstream Redirect Status:" ++ resp.status),
          sent := calls }) ∧
    (∀ pr hook calls req resp, isPathAllowed p.allowedPaths r.urlPath = true →
      np p.provider p.secret = .ok pr → parse pr = .ok hook →
      pr.validate hook = true →
      redirect client p (some hook) r.urlPath = (calls, .ok (req, resp)) →
      resp.statusCode < 400 →
      proxyRequest np parse client p r =
        { status := 200, body := "", sent := calls }) := by
  refine ⟨proxyRequest_not_allowed np parse client p r,
    fun e hp he => proxyRequest_provider_error np parse client p r e hp he,
    fun pr e hp hnp hpe => proxyRequest_parse_error np parse client p r pr e hp hnp hpe,
    fun pr hook hp hnp hok hv =>
      proxyRequest_validate_false np parse client p r pr hook hp hnp hok hv,
    fun pr hook calls e hp hnp hok hv hr =>
      proxyRequest_redirect_error np parse client p r pr hook calls e hp hnp hok hv hr,
    fun pr hook calls req resp hp hnp hok hv hr hge =>
      proxyRequest_upstream_status np parse client p r pr hook calls req resp
        hp hnp hok hv hr hge,
    fun pr hook calls req resp hp hnp hok hv hr hlt =>
      proxyRequest_success np parse client p r pr hook calls req resp
        hp hnp hok hv hr hlt⟩

/-- Witness for claim C1: a concrete configuration exercising the success
step (valid path, provider, parse and validation, upstream 200: caller gets
the default 200 with empty body) and the first failing step (path not in the
allow-list: caller gets 403 and the upstream is not contacted). -/
theorem proxyRequest_orchestration_witness :
    proxyRequest (fun _ _ => .ok ⟨fun _ => true⟩)
        (fun _ => .ok { requestMethod := "POST", headers := [], payload := [1, 2] })
        (fun _ => .ok ⟨200, "200 OK"⟩)
        ({ provider := "github", upstreamURL := "/u",
           allowedPaths := ["/x"], secret := "s" } : Proxy)
        ({ urlPath := "/x", urlString := "/x" } : InboundRequest) =
      { status := 200, body := "",
        sent := [{ method := "POST", url := { scheme := "http", rest := "/u/x" },
                   body := [1, 2], headers := [] }] } ∧
    proxyRequest (fun _ _ => .ok ⟨fun _ => true⟩)
        (fun _ => .ok { requestMethod := "POST", headers := [], payload := [1, 2] })
        (fun _ => .ok ⟨200, "200 OK"⟩)
        ({ provider := "github", upstreamURL := "/u",
           allowedPaths := ["/x"], secret := "s" } : Proxy)
        ({ urlPath := "/y", urlString := "/y" } : InboundRequest) =
      { status := 403,
        body := httpError ("Not allowed to proxy path: \x27" ++ "/y" ++ "\x27"),
        sent := [] } := by
  constructor
  · exact (proxyRequest_orchestration (fun _ _ => .ok ⟨fun _ => true⟩)
      (fun _ => .ok { requestMethod := "POST", headers := [], payload := [1, 2] })
      (fun _ => .ok ⟨200, "200 OK"⟩)
      ({ provider := "github", upstreamURL := "/u",
         allowedPaths := ["/x"], secret := "s" } : Proxy)
      ({ urlPath := "/x", urlString := "/x" } : InboundRequest)).2.2.2.2.2.2
      ⟨fun _ => true⟩ { requestMethod := "POST", headers := [], payload := [1, 2] }
      [{ method := "POST", url := { scheme := "http", rest := "/u/x" },
         body := [1, 2], headers := [] }]
      { method := "POST", url := { scheme := "http", rest := "/u/x" },
        body := [1, 2], headers := [] }
      ⟨200, "200 OK"⟩ (by decide) rfl rfl rfl (by decide) (by decide)
  · exact (proxyRequest_orchestration (fun _ _ => .ok ⟨fun _ => true⟩)
      (fun _ => .ok { requestMethod := "POST", headers := [], payload := [1, 2] })
      (fun _ => .ok ⟨200, "200 OK"⟩)
      ({ provider := "github", upstreamURL := "/u",
         allowedPaths := ["/x"], secret := "s" } : Proxy)
      ({ urlPath := "/y", urlString := "/y" } : InboundRequest)).1 (by decide)

/-- Claim C8: when `proxyRequest` rejects a request because the path is not
allowed (403) or because `Validate` returned false (400), the upstream is
never contacted — the instrumented list of outbound calls is empty, and the
outcome does not depend on the HTTP client at all. -/
theorem proxyRequest_reject_no_upstream (np : String → String → Except String Provider)
    (parse : Provider → Except String Hook)
    (client : OutboundRequest → Except String HttpResponse)
    (p : Proxy) (r : InboundRequest) :
    (isPathAllowed p.allowedPaths r.urlPath = false →
      (proxyRequest np parse client p r).status = 403 ∧
      (proxyRequest np parse client p r).sent = [] ∧
      (∀ client2, proxyRequest np parse client2 p r = proxyRequest np parse client p r)) ∧
    (∀ pr hook, isPathAllowed p.allowedPaths r.urlPath = true →
      np p.provider p.secret = .ok pr → parse pr = .ok hook →
      pr.validate hook = false →
      (proxyRequest np parse client p r).status = 400 ∧
      (proxyRequest np parse client p r).sent = [] ∧
      (∀ client2, proxyRequest np parse client2 p r = proxyRequest np parse client p r)) := by
  constructor
  · intro h
    rw [proxyRequest_not_allowed np parse client p r h]
    exact ⟨rfl, rfl, fun client2 => proxyRequest_not_allowed np parse client2 p r h⟩
  · intro pr hook hp hnp hok hv
    rw [proxyRequest_validate_false np parse client p r pr hook hp hnp hok hv]
    exact ⟨rfl, rfl, fun client2 =>
      proxyRequest_validate_false np parse client2 p r pr hook hp hnp hok hv⟩

/-- Witness for claim C8: a disallowed path yields 403 with no outbound call,
and a failed validation yields 400 with no outbound call. -/
theorem proxyRequest_reject_no_upstream_witness :
    ((proxyRequest (fun _ _ => .ok ⟨fun _ => true⟩)
        (fun _ => .ok { requestMethod := "POST", headers := [], payload := [] })
        (fun _ => .ok ⟨200, "200 OK"⟩)
        ({ provider := "github", upstreamURL := "/u",
           allowedPaths := ["/x"], secret := "s" } : Proxy)
        ({ urlPath := "/y", urlString := "/y" } : InboundRequest)).status = 403 ∧
      (proxyRequest (fun _ _ => .ok ⟨fun _ => true⟩)
        (fun _ => .ok { requestMethod := "POST", headers := [], payload := [] })
        (fun _ => .ok ⟨200, "200 OK"⟩)
        ({ provider := "github", upstreamURL := "/u",
           allowedPaths := ["/x"], secret := "s" } : Proxy)
        ({ urlPath := "/y", urlString := "/y" } : InboundRequest)).sent = []) ∧
    ((proxyRequest (fun _ _ => .ok ⟨fun _ => false⟩)
        (fun _ => .ok { requestMethod := "POST", headers := [], payload := [] })
        (fun _ => .ok ⟨200, "200 OK"⟩)
        ({ provider := "github", upstreamURL := "/u",
           allowedPaths := ["/x"], secret := "s" } : Proxy)
        ({ urlPath := "/x", urlString := "/x" } : InboundRequest)).status = 400 ∧
      (proxyRequest (fun _ _ => .ok ⟨fun _ => false⟩)
        (fun _ => .ok { requestMethod := "POST", headers := [], payload := [] })
        (fun _ => .ok ⟨200, "200 OK"⟩)
        ({ provider := "github", upstreamURL := "/u",
           allowedPaths := ["/x"], secret := "s" } : Proxy)
        ({ urlPath := "/x", urlString := "/x" } : InboundRequest)).sent = []) := by
  constructor
  · have h := (proxyRequest_reject_no_upstream (fun _ _ => .ok ⟨fun _ => true⟩)
      (fun _ => .ok { requestMethod := "POST", headers := [], payload := [] })
      (fun _ => .ok ⟨200, "200 OK"⟩)
      ({ provider := "github", upstreamURL := "/u",
         allowedPaths := ["/x"], secret := "s" } : Proxy)
      ({ urlPath := "/y", urlString := "/y" } : InboundRequest)).1 (by decide)
    exact ⟨h.1, h.2.1⟩
  · have h := (proxyRequest_reject_no_upstream (fun _ _ => .ok ⟨fun _ => false⟩)
      (fun _ => .ok { requestMethod := "POST", headers := [], payload := [] })
      (fun _ => .ok ⟨200, "200 OK"⟩)
      ({ provider := "github", upstreamURL := "/u",
         allowedPaths := ["/x"], secret := "s" } : Proxy)
      ({ urlPath := "/x", urlString := "/x" } : InboundRequest)).2
      ⟨fun _ => false⟩ { requestMethod := "POST", headers := [], payload := [] }
      (by decide) rfl rfl rfl
    exact ⟨h.1, h.2.1⟩

end GitWebhookProxy
